import Mathlib

/-!
# Movie dataset utilities: date filter (clean.go) and metadata enricher (main.go)

A shallow embedding of the two command pipelines of the repository.

* Go strings are modelled by Lean strings and scanned character by character.
  The date parser only ever accepts ASCII characters, for which bytes and
  characters coincide.
* The standard-library call `time.Parse("02/01/06", s)` is embedded following
  the functions of Go's `time` package that it runs for this layout:
  `getnum`, `skip`, `atoi`, `leadingInt`, `isLeap`, `daysIn` and the body of
  `parse` for the chunks day, "/", month, "/", two-digit year.
* Files are lists of rows, a row is a list of fields.
-/

deriving instance DecidableEq for Except

namespace MovieData

/-! ## Go's `time` package, as used by the layout "02/01/06" -/

/-- Go `isDigit(s, i)`: index `i` is in range and holds an ASCII digit. -/
def isDigit (s : List Char) (i : Nat) : Bool :=
  match s.get? i with
  | none => false
  | some c => decide ('0' ≤ c ∧ c ≤ '9')

/-- Value of an ASCII digit, Go `int(c - '0')`. -/
def digitVal (c : Char) : Nat := c.toNat - '0'.toNat

/-- Go `getnum(s, fixed)`: a one or two digit number at the front of `s`;
with `fixed` two digits are required. Returns the number and the rest. -/
def getnum (s : List Char) (fixed : Bool) : Option (Nat × List Char) :=
  if !isDigit s 0 then none
  else if !isDigit s 1 then
    if fixed then none
    else some (digitVal (s.getD 0 '0'), s.drop 1)
  else some (digitVal (s.getD 0 '0') * 10 + digitVal (s.getD 1 '0'), s.drop 2)

/-- Go `skip(value, pre)` for a literal chunk without spaces (the layout's literal
chunks are "/" only, so the space-collapsing branch of `skip` is never entered):
`value` must start with the characters of `pre`, which are removed. -/
def skip : List Char → List Char → Option (List Char)
  | value, [] => some value
  | [], _ :: _ => none
  | v :: value, p :: pre => if v ≠ p then none else skip value pre

/-- Go `leadingInt(s)`: the leading run of digits of `s` as an unsigned
number, with the rest; fails on overflow beyond `2^63`. The accumulator `x`
starts at 0. -/
def leadingIntFrom (x : Nat) : List Char → Option (Nat × List Char)
  | [] => some (x, [])
  | c :: s =>
    if c < '0' ∨ c > '9' then some (x, c :: s)
    else if x > 2 ^ 63 / 10 then none
    else
      let x1 := x * 10 + digitVal c
      if x1 > 2 ^ 63 then none else leadingIntFrom x1 s

/-- Go `leadingInt`. -/
def leadingInt (s : List Char) : Option (Nat × List Char) := leadingIntFrom 0 s

/-- Go `atoi(s)` of package `time`: an optional sign `+` or `-`, then digits
up to the end of the string. -/
def atoi (s : List Char) : Option Int :=
  let neg := decide (s.head? = some '-')
  let s1 := if s.head? = some '-' ∨ s.head? = some '+' then s.drop 1 else s
  match leadingInt s1 with
  | none => none
  | some (q, rem) =>
    if rem.length > 0 then none
    else some (if neg then -(q : Int) else (q : Int))

/-- Go `isLeap(year)`. -/
def isLeap (year : Int) : Bool :=
  decide (year % 4 = 0 ∧ (year % 100 ≠ 0 ∨ year % 400 = 0))

/-- Go table `daysBefore`: days before the end of month `m` in a non-leap
year, `daysBefore[0] = 0`. -/
def daysBefore : List Nat :=
  [0, 31, 31 + 28, 31 + 28 + 31, 31 + 28 + 31 + 30, 31 + 28 + 31 + 30 + 31,
   31 + 28 + 31 + 30 + 31 + 30, 31 + 28 + 31 + 30 + 31 + 30 + 31,
   31 + 28 + 31 + 30 + 31 + 30 + 31 + 31, 31 + 28 + 31 + 30 + 31 + 30 + 31 + 31 + 30,
   31 + 28 + 31 + 30 + 31 + 30 + 31 + 31 + 30 + 31,
   31 + 28 + 31 + 30 + 31 + 30 + 31 + 31 + 30 + 31 + 30,
   31 + 28 + 31 + 30 + 31 + 30 + 31 + 31 + 30 + 31 + 30 + 31]

/-- Go `daysIn(m, year)`. -/
def daysIn (m : Nat) (year : Int) : Nat :=
  if m = 2 ∧ isLeap year then 29
  else daysBefore.getD m 0 - daysBefore.getD (m - 1) 0

/-- The calendar date of a Go `time.Time` value in UTC, as produced by
`time.Date(year, month, day, 0, 0, 0, 0, UTC)` for a validated day. -/
structure Time where
  year : Int
  month : Nat
  day : Nat
  deriving DecidableEq, Repr

/-- Go `Time.Year()`. -/
def Time.Year (t : Time) : Int := t.year

/-- Go `time.Parse("02/01/06", value)`: the chunks of the layout are
`stdZeroDay`, the literal "/", `stdZeroMonth`, the literal "/", `stdYear`, and
then the end of the layout, where left-over text is an error. `none` stands
for a non-nil error. -/
def timeParse (value : List Char) : Option Time :=
  -- stdZeroDay: any two-digit day, validated at the end
  match getnum value true with
  | none => none
  | some (day, value) =>
  match skip value ['/'] with
  | none => none
  | some value =>
  -- stdZeroMonth
  match getnum value true with
  | none => none
  | some (month, value) =>
  if month ≤ 0 ∨ 12 < month then none
  else
  match skip value ['/'] with
  | none => none
  | some value =>
  -- stdYear
  if value.length < 2 then none
  else
  match atoi (value.take 2) with
  | none => none
  | some yy =>
  let year : Int := if yy ≥ 69 then yy + 1900 else yy + 2000
  -- end of layout
  if (value.drop 2).length ≠ 0 then none
  -- day of month validation
  else if day < 1 ∨ day > daysIn month year then none
  else some ⟨year, month, day⟩

/-! ## clean.go -/

/-- Source `isValidDate`: the date parses with layout dd/mm/yy. -/
def isValidDate (date : String) : Bool :=
  (timeParse date.toList).isSome

/-- Source `getYearFromDate`: the year of the parsed date, or the parse error. -/
def getYearFromDate (date : String) : Except String Int :=
  match timeParse date.toList with
  | none => .error "parsing time"
  | some parsedDate => .ok parsedDate.Year

/-- A CSV record: the list of its fields. -/
abbrev Row := List String

/-- How a run of the filter loop ends: normally, or with Go's run-time panic
"index out of range" at `record[0]` or `record[2]`. -/
inductive FilterExit where
  | completed
  | indexOutOfRange
  deriving DecidableEq, Repr

/-- Result of the filter: the rows handed to the CSV writer (flushed by the
deferred `writer.Flush()` on both exits) and the way the loop ended. -/
structure FilterRun where
  written : List Row
  exit : FilterExit
  deriving DecidableEq, Repr

/-- The loop `for _, record := range records` of `main` in clean.go, with
`out` the rows written so far. -/
def filterLoop : List Row → List Row → FilterRun
  | [], out => ⟨out, .completed⟩
  | record :: rest, out =>
    match record[0]? with
    | none => ⟨out, .indexOutOfRange⟩
    | some field0 =>
      -- Skip the header row
      if field0 == "release_date" then filterLoop rest out
      else
        let releaseDate := field0
        if isValidDate releaseDate then
          match getYearFromDate releaseDate with
          | .ok year =>
            if year > 2014 ∧ year ≤ 2024 then
              match record[2]? with
              | none => ⟨out, .indexOutOfRange⟩
              | some title => filterLoop rest (out ++ [[title]])
            else filterLoop rest out
          | .error _ => filterLoop rest out
        else filterLoop rest out

/-- Source `main` of clean.go after the input was read into `records`: the
header row `title` is written first, then the loop runs. -/
def dateFilter (records : List Row) : FilterRun :=
  filterLoop records [["title"]]

/-! ### The date format as the specification words it -/

/-- An ASCII decimal digit. -/
def isDigitChar (c : Char) : Bool := decide ('0' ≤ c ∧ c ≤ '9')

/-- The four-digit year of a two-digit year under the century pivot of the
date library: 69 and above are 19yy, below are 20yy. -/
def pivotYear (yy : Nat) : Int := if 69 ≤ yy then 1900 + (yy : Int) else 2000 + (yy : Int)

/-- Gregorian leap year. -/
def leapYear (y : Int) : Bool := decide (y % 4 = 0 ∧ (y % 100 ≠ 0 ∨ y % 400 = 0))

/-- Number of days of a month of the Gregorian calendar (0 for no month). -/
def monthLength (month : Nat) (year : Int) : Nat :=
  match month with
  | 1 => 31
  | 2 => if leapYear year then 29 else 28
  | 3 => 31
  | 4 => 30
  | 5 => 31
  | 6 => 30
  | 7 => 31
  | 8 => 31
  | 9 => 30
  | 10 => 31
  | 11 => 30
  | 12 => 31
  | _ => 0

/-- The date denoted by a string in DD/MM/YY form: exactly two digits of day,
a slash, two digits of month, a slash, two digits of year, naming a day that
exists in the calendar; the result is (day, month, four-digit year). -/
def ddmmyy (s : String) : Option (Nat × Nat × Int) :=
  match s.toList with
  | [d1, d2, s1, m1, m2, s2, y1, y2] =>
    if isDigitChar d1 ∧ isDigitChar d2 ∧ s1 = '/' ∧ isDigitChar m1 ∧ isDigitChar m2
        ∧ s2 = '/' ∧ isDigitChar y1 ∧ isDigitChar y2 then
      let day := digitVal d1 * 10 + digitVal d2
      let month := digitVal m1 * 10 + digitVal m2
      let year := pivotYear (digitVal y1 * 10 + digitVal y2)
      if 1 ≤ month ∧ month ≤ 12 ∧ 1 ≤ day ∧ day ≤ monthLength month year then
        some (day, month, year)
      else none
    else none
  | _ => none

/-- A string is a valid DD/MM/YY date. -/
def isDDMMYY (s : String) : Bool := (ddmmyy s).isSome

/-- The date field of a row is a valid DD/MM/YY date of a year in the range
`2014 < year ≤ 2024`. -/
def inRange (s : String) : Bool :=
  match ddmmyy s with
  | some (_, _, year) => decide (2014 < year ∧ year ≤ 2024)
  | none => false

/-- A row is retained by the filter contract: its field 0 is not the header
label, and is a valid date within the year range. -/
def retained (r : Row) : Bool :=
  match r[0]? with
  | none => false
  | some field0 => field0 ≠ "release_date" && inRange field0

/-! ## main.go -/

/-- Source type `Data`: the fields of the OMDB response; a field absent from
the JSON body is the empty string. -/
structure Data where
  Title : String
  Year : String
  Rated : String
  ReleaseDate : String
  Runtime : String
  Genre : String
  Director : String
  Writer : String
  Actors : String
  Language : String
  Plot : String
  Response : String
  Error : String
  IMDbID : String
  deriving DecidableEq, Repr, Inhabited

/-- An HTTP GET request: the base URL and the query parameters in the order
the source adds them (the source sends them URL-encoded). -/
structure Request where
  baseURL : String
  params : List (String × String)
  deriving DecidableEq, Repr

/-- What the environment makes of a GET request whose body is decoded into a
value of type `α`: `http.Get` fails, `ioutil.ReadAll` fails, `json.Unmarshal`
fails (leaving `value` as far as it was filled), or the body is parsed. Each
failure carries the text of the Go error. -/
inductive Fetched (α : Type) where
  | getError (err : String)
  | readError (err : String)
  | jsonError (value : α) (err : String)
  | parsed (value : α)
  deriving DecidableEq, Repr

/-- The request built by `fetchMovieDetails`. -/
def omdbRequest (apiKey movieTitle : String) : Request :=
  ⟨"https://www.omdbapi.com/", [("apikey", apiKey), ("t", movieTitle)]⟩

/-- Source `fetchMovieDetails`, with `get` the environment's answer to the
request. The result is Go's pair `(Data, error)`, `none` being the nil error. -/
def fetchMovieDetails (get : Request → Fetched Data) (apiKey movieTitle : String) :
    Data × Option String :=
  match get (omdbRequest apiKey movieTitle) with
  | .getError err => (default, some ("error making GET request: " ++ err))
  | .readError err => (default, some ("error reading response body: " ++ err))
  | .jsonError data err => (data, some ("error unmarshalling response: " ++ err))
  | .parsed data =>
    -- Handle API errors
    if data.Response == "False" then (data, some ("OMDB API error: " ++ data.Error))
    else (data, none)

/-- One entry of `items` in the video-search response: `id.videoId`. -/
structure SearchItem where
  VideoID : String
  deriving DecidableEq, Repr

/-- The decoded video-search response of `searchActualYouTubeTrailer`. -/
structure SearchResult where
  Items : List SearchItem
  deriving DecidableEq, Repr

/-- The request built by `searchActualYouTubeTrailer`. -/
def youtubeRequest (apiKey title year : String) : Request :=
  ⟨"https://www.googleapis.com/youtube/v3/search",
    [("key", apiKey), ("part", "snippet"), ("q", title ++ " " ++ year ++ " trailer"),
     ("type", "video"), ("maxResults", "1")]⟩

/-- Source `searchActualYouTubeTrailer`, with `get` the environment's answer
to the request. The result is Go's pair `(string, error)`. -/
def searchActualYouTubeTrailer (get : Request → Fetched SearchResult)
    (apiKey title year : String) : String × Option String :=
  match get (youtubeRequest apiKey title year) with
  | .getError err => ("", some err)
  | .readError err => ("", some err)
  | .jsonError _ err => ("", some err)
  | .parsed result =>
    if h : result.Items.length > 0 then
      ("https://www.youtube.com/watch?v=" ++ (result.Items.get ⟨0, h⟩).VideoID, none)
    else ("", some "no trailer found")

/-- The header row written by `writeToCSV` to a new file. -/
def header : Row :=
  ["Title", "Year", "Rated", "Release Date", "Runtime", "Genre", "Director", "Writer",
   "Actors", "Language", "Plot", "Trailer Link"]

/-- Source `writeToCSV` on the file `movies.csv`, which is absent (`none`) or
holds a list of rows: the file is opened in append mode, created when absent;
the header goes first when the file did not exist at the `os.Stat` probe. The
file system is taken to accept the open and the writes (the source ends the
process with `log.Fatalf` otherwise). -/
def writeToCSV (file : Option (List Row)) (movieDetails : Row) : Option (List Row) :=
  match file with
  | none => some ([header] ++ [movieDetails])
  | some content => some (content ++ [movieDetails])

/-- Source constant `batchSize`. -/
def batchSize : Nat := 100

/-- Result of one `reader.Read()` before the end of the input: a record, whose
first field `record[0]` always exists in a record of `encoding/csv`, or a
parse error. -/
inductive ReadResult where
  | record (title : String) (others : List String)
  | parseError (err : String)
  deriving DecidableEq, Repr

/-- One iteration's worth of environment: what `reader.Read()` returns and how
the two web APIs answer while this record is processed. -/
structure Step where
  read : ReadResult
  omdb : Request → Fetched Data
  youtube : Request → Fetched SearchResult

/-- The state of the enricher: the output file, the counter `movieCount` and
the titles logged by "Querying movie", one per metadata lookup issued. -/
structure EnrichState where
  file : Option (List Row)
  movieCount : Nat
  queried : List String
  deriving DecidableEq, Repr

/-- How the loop of `main` ends: `reader.Read()` reports the end of the input,
the counter has reached `batchSize`, or `log.Fatal` ends the process after a
failed trailer search. -/
inductive EnrichExit where
  | endOfInput
  | batchFull
  | fatal (err : String)
  deriving DecidableEq, Repr

/-- The row `main` hands to `writeToCSV`. -/
def outputRow (data : Data) (trailerLink : String) : Row :=
  [data.Title, data.Year, data.Rated, data.ReleaseDate, data.Runtime, data.Genre,
   data.Director, data.Writer, data.Actors, data.Language, data.Plot, trailerLink]

/-- The loop `for { ... }` of `main` in main.go over the remaining input. -/
def enrichLoop (apiKey youtubeAPIKey : String) :
    List Step → EnrichState → EnrichState × EnrichExit
  | [], st => (st, .endOfInput)
  | step :: rest, st =>
    if st.movieCount ≥ batchSize then (st, .batchFull)
    else
      match step.read with
      | .parseError _ => enrichLoop apiKey youtubeAPIKey rest st
      | .record movieTitle _ =>
        let st1 : EnrichState := ⟨st.file, st.movieCount, st.queried ++ [movieTitle]⟩
        match fetchMovieDetails step.omdb apiKey movieTitle with
        | (_, some _) => enrichLoop apiKey youtubeAPIKey rest st1
        | (data, none) =>
          match searchActualYouTubeTrailer step.youtube youtubeAPIKey data.Title data.Year with
          | (_, some err) => (st1, .fatal err)
          | (trailerLink, none) =>
            enrichLoop apiKey youtubeAPIKey rest
              ⟨writeToCSV st1.file (outputRow data trailerLink), st1.movieCount + 1, st1.queried⟩

/-- One run of the enricher on the input `steps`, started with the output
file in state `file`: `movieCount := 0`, then the loop. -/
def enrich (apiKey youtubeAPIKey : String) (steps : List Step) (file : Option (List Row)) :
    EnrichState × EnrichExit :=
  enrichLoop apiKey youtubeAPIKey steps ⟨file, 0, []⟩

/-! ### Vocabulary of the claims on the enricher -/

/-- The title read in a step, if a record was read. -/
def Step.title? (s : Step) : Option String :=
  match s.read with
  | .record title _ => some title
  | .parseError _ => none

/-- The titles of the records among the steps, in order. -/
def titlesOf (steps : List Step) : List String := steps.filterMap Step.title?

/-- The row of a step whose metadata lookup and trailer lookup both succeed. -/
def Step.row? (apiKey youtubeAPIKey : String) (s : Step) : Option Row :=
  match s.read with
  | .parseError _ => none
  | .record title _ =>
    match fetchMovieDetails s.omdb apiKey title with
    | (_, some _) => none
    | (data, none) =>
      match searchActualYouTubeTrailer s.youtube youtubeAPIKey data.Title data.Year with
      | (_, some _) => none
      | (trailerLink, none) => some (outputRow data trailerLink)

/-- The step reads a record whose metadata lookup fails. -/
def Step.metadataFails (apiKey : String) (s : Step) : Bool :=
  match s.read with
  | .parseError _ => false
  | .record title _ => (fetchMovieDetails s.omdb apiKey title).2.isSome

/-- The step reads a record whose metadata lookup succeeds and whose trailer
lookup then fails. -/
def Step.trailerFails (apiKey youtubeAPIKey : String) (s : Step) : Bool :=
  match s.read with
  | .parseError _ => false
  | .record title _ =>
    match fetchMovieDetails s.omdb apiKey title with
    | (_, some _) => false
    | (data, none) =>
      (searchActualYouTubeTrailer s.youtube youtubeAPIKey data.Title data.Year).2.isSome

/-- The file after the rows `rows` were handed to `writeToCSV` one by one. -/
def writeAll (file : Option (List Row)) (rows : List Row) : Option (List Row) :=
  rows.foldl writeToCSV file

/-- The century rule of `stdYear` in Go `parse`. -/
def centuryYear (yy : Int) : Int := if yy ≥ 69 then yy + 1900 else yy + 2000

/-! ### Sample data -/

/-- A metadata response with the given status and error fields. -/
def sampleData (response error : String) : Data :=
  ⟨"Inception", "2010", "PG-13", "16 Jul 2010", "148 min", "Action, Adventure, Sci-Fi",
    "Christopher Nolan", "Christopher Nolan", "Leonardo DiCaprio", "English",
    "A thief who steals corporate secrets.", response, error, "tt1375666"⟩

/-- A step reading `title`, found by the metadata API, with the given answer
of the video search. -/
def foundStep (title : String) (videos : List SearchItem) : Step :=
  ⟨.record title [], fun _ => .parsed (sampleData "True" ""), fun _ => .parsed ⟨videos⟩⟩

/-- A step reading `title`, which the metadata API does not find. -/
def notFoundStep (title : String) : Step :=
  ⟨.record title [], fun _ => .parsed ⟨"", "", "", "", "", "", "", "", "", "", "", "False",
      "Movie not found!", ""⟩, fun _ => .parsed ⟨[]⟩⟩

/-! ## Lemmas on the date parser -/

theorem isDigitChar_iff (c : Char) : isDigitChar c = true ↔ ¬ (c < '0' ∨ c > '9') := by
  simp [isDigitChar, not_or, not_lt]

theorem digitVal_le_nine (c : Char) (h : isDigitChar c = true) : digitVal c ≤ 9 := by
  simp only [isDigitChar, decide_eq_true_eq, Char.le_def] at h
  have h2 : c.val.toNat ≤ 57 := h.2
  simp only [digitVal, Char.toNat]
  have : ('0' : Char).val.toNat = 48 := rfl
  omega

theorem isDigit_zero (a : Char) (l : List Char) : isDigit (a :: l) 0 = isDigitChar a := rfl

theorem isDigit_one (a b : Char) (l : List Char) :
    isDigit (a :: b :: l) 1 = isDigitChar b := rfl

theorem getnum_fixed_some (l rest : List Char) (n : Nat) :
    getnum l true = some (n, rest) ↔
      ∃ a b, l = a :: b :: rest ∧ isDigitChar a = true ∧ isDigitChar b = true
        ∧ n = digitVal a * 10 + digitVal b := by
  rcases l with _ | ⟨a, _ | ⟨b, l⟩⟩
  · simp [getnum, isDigit]
  · simp [getnum, isDigit]
  · simp only [getnum, isDigit_zero, isDigit_one, List.getD_cons_zero, List.getD_cons_succ,
      List.drop_succ_cons, List.drop_zero]
    constructor
    · intro h
      by_cases ha : isDigitChar a = true
      · by_cases hb : isDigitChar b = true
        · simp only [ha, hb, Bool.not_true, Bool.false_eq_true, if_false, Option.some.injEq,
            Prod.mk.injEq] at h
          exact ⟨a, b, by rw [h.2], ha, hb, h.1.symm⟩
        · simp [ha, hb] at h
      · simp [ha] at h
    · rintro ⟨a1, b1, hl, ha, hb, hn⟩
      simp only [List.cons.injEq] at hl
      obtain ⟨rfl, rfl, rfl⟩ := hl
      simp [ha, hb, hn]

theorem skip_slash (l rest : List Char) :
    skip l ['/'] = some rest ↔ l = '/' :: rest := by
  rcases l with _ | ⟨a, l⟩
  · simp [skip]
  · by_cases h : a = '/' <;> simp [skip, h]

theorem leadingIntFrom_nondigit (x : Nat) (c : Char) (s : List Char)
    (h : isDigitChar c = false) : leadingIntFrom x (c :: s) = some (x, c :: s) := by
  have h1 : c < '0' ∨ c > '9' := by
    by_contra hc
    have := (isDigitChar_iff c).2 hc
    simp [h] at this
  simp [leadingIntFrom, h1]

theorem leadingIntFrom_digit (x : Nat) (c : Char) (s : List Char)
    (h : isDigitChar c = true) (hx : x ≤ 9) :
    leadingIntFrom x (c :: s) = leadingIntFrom (x * 10 + digitVal c) s := by
  have h1 : ¬ (c < '0' ∨ c > '9') := (isDigitChar_iff c).1 h
  have h2 := digitVal_le_nine c h
  have h3 : ¬ (x > 2 ^ 63 / 10) := by
    have : (2 : Nat) ^ 63 / 10 = 922337203685477580 := by norm_num
    omega
  have h4 : ¬ (x * 10 + digitVal c > 2 ^ 63) := by
    have : (2 : Nat) ^ 63 = 9223372036854775808 := by norm_num
    omega
  simp only [leadingIntFrom, h1, h3, h4, if_false]

theorem leadingInt_one (b : Char) :
    leadingInt [b] = if isDigitChar b = true then some (digitVal b, []) else some (0, [b]) := by
  by_cases hb : isDigitChar b = true
  · rw [leadingInt, leadingIntFrom_digit 0 b [] hb (by omega)]
    simp [leadingIntFrom, hb]
  · have hb2 : isDigitChar b = false := by simpa using hb
    rw [leadingInt, leadingIntFrom_nondigit 0 b [] hb2]
    simp [hb2]

theorem leadingInt_two (a b : Char) (ha : isDigitChar a = true) :
    leadingInt [a, b] = if isDigitChar b = true then some (digitVal a * 10 + digitVal b, [])
      else some (digitVal a, [b]) := by
  rw [leadingInt, leadingIntFrom_digit 0 a [b] ha (by omega)]
  by_cases hb : isDigitChar b = true
  · rw [leadingIntFrom_digit _ b [] hb (by have := digitVal_le_nine a ha; omega)]
    simp [leadingIntFrom, hb]
  · have hb2 : isDigitChar b = false := by simpa using hb
    rw [leadingIntFrom_nondigit _ b [] hb2]
    simp [hb2]

/-- Go `atoi` on two digits is their decimal value. -/
theorem atoi_digits (a b : Char) (ha : isDigitChar a = true) (hb : isDigitChar b = true) :
    atoi [a, b] = some ((digitVal a * 10 + digitVal b : Nat) : Int) := by
  have h1 : a ≠ '-' := by rintro rfl; revert ha; decide
  have h2 : a ≠ '+' := by rintro rfl; revert ha; decide
  simp [atoi, h1, h2, leadingInt_two a b ha, hb]

/-- Whatever two characters Go `atoi` accepts: either two digits, or a
character that is no digit (a sign) followed by one digit, of absolute value at
most 9. -/
theorem atoi_two_some (a b : Char) (v : Int) (h : atoi [a, b] = some v) :
    (isDigitChar a = true ∧ isDigitChar b = true
        ∧ v = ((digitVal a * 10 + digitVal b : Nat) : Int))
      ∨ (isDigitChar a = false ∧ -9 ≤ v ∧ v ≤ 9) := by
  by_cases ha : isDigitChar a = true
  · left
    have h1 : a ≠ '-' := by rintro rfl; revert ha; decide
    have h2 : a ≠ '+' := by rintro rfl; revert ha; decide
    by_cases hb : isDigitChar b = true
    · rw [atoi_digits a b ha hb] at h
      exact ⟨ha, hb, (Option.some.inj h).symm⟩
    · simp [atoi, h1, h2, leadingInt_two a b ha, hb] at h
  · right
    have ha2 : isDigitChar a = false := by simpa using ha
    refine ⟨ha2, ?_⟩
    by_cases hs : a = '-' ∨ a = '+'
    · by_cases hb : isDigitChar b = true
      · have h9 := digitVal_le_nine b hb
        simp only [atoi, List.head?_cons, Option.some.injEq, hs, if_true, List.drop_succ_cons,
          List.drop_zero, leadingInt_one, hb] at h
        simp only [List.length_nil, gt_iff_lt, lt_self_iff_false, if_false,
          Option.some.injEq] at h
        split at h <;> omega
      · simp [atoi, hs, leadingInt_one, hb] at h
    · have hs1 : ¬ (a = '-') := fun e => hs (Or.inl e)
      have hs2 : ¬ (a = '+') := fun e => hs (Or.inr e)
      simp [atoi, hs1, hs2, leadingInt, leadingIntFrom_nondigit 0 a [b] ha2] at h

theorem daysIn_eq_monthLength (m : Nat) (y : Int) (h1 : 1 ≤ m) (h2 : m ≤ 12) :
    daysIn m y = monthLength m y := by
  interval_cases m <;> simp [daysIn, monthLength, daysBefore, isLeap, leapYear]

/-- Every string accepted by the parser has eight characters: two digits, a
slash, two digits, a slash and two characters accepted by `atoi`. -/
theorem timeParse_inv (l : List Char) (t : Time) (h : timeParse l = some t) :
    ∃ d1 d2 m1 m2 y1 y2 yy, l = [d1, d2, '/', m1, m2, '/', y1, y2]
      ∧ isDigitChar d1 = true ∧ isDigitChar d2 = true
      ∧ isDigitChar m1 = true ∧ isDigitChar m2 = true
      ∧ atoi [y1, y2] = some yy
      ∧ 1 ≤ digitVal m1 * 10 + digitVal m2 ∧ digitVal m1 * 10 + digitVal m2 ≤ 12
      ∧ 1 ≤ digitVal d1 * 10 + digitVal d2
      ∧ digitVal d1 * 10 + digitVal d2
          ≤ daysIn (digitVal m1 * 10 + digitVal m2) (centuryYear yy)
      ∧ t = ⟨centuryYear yy, digitVal m1 * 10 + digitVal m2, digitVal d1 * 10 + digitVal d2⟩ := by
  unfold timeParse at h
  cases h1 : getnum l true with
  | none => simp [h1] at h
  | some p1 =>
    obtain ⟨day, v1⟩ := p1
    simp only [h1] at h
    cases h2 : skip v1 ['/'] with
    | none => simp [h2] at h
    | some v2 =>
      simp only [h2] at h
      cases h3 : getnum v2 true with
      | none => simp [h3] at h
      | some p3 =>
        obtain ⟨month, v3⟩ := p3
        simp only [h3] at h
        by_cases hm : month ≤ 0 ∨ 12 < month
        · rw [if_pos hm] at h; cases h
        · rw [if_neg hm] at h
          cases h4 : skip v3 ['/'] with
          | none => simp [h4] at h
          | some v4 =>
            simp only [h4] at h
            by_cases hlen : v4.length < 2
            · rw [if_pos hlen] at h; cases h
            · rw [if_neg hlen] at h
              cases h5 : atoi (v4.take 2) with
              | none => simp [h5] at h
              | some yy =>
                simp only [h5] at h
                by_cases hrest : (v4.drop 2).length ≠ 0
                · rw [if_pos hrest] at h; cases h
                · rw [if_neg hrest] at h
                  by_cases hday : day < 1 ∨ day > daysIn month (if yy ≥ 69 then yy + 1900 else yy + 2000)
                  · rw [if_pos hday] at h; cases h
                  · rw [if_neg hday] at h
                    simp only [Option.some.injEq] at h
                    obtain ⟨d1, d2, rfl, hd1, hd2, rfl⟩ := (getnum_fixed_some l v1 day).1 h1
                    obtain ⟨m1, m2, hv2, hm1, hm2, rfl⟩ := (getnum_fixed_some v2 v3 month).1 h3
                    have hv1 := (skip_slash v1 v2).1 h2
                    have hv3 := (skip_slash v3 v4).1 h4
                    subst hv1 hv2 hv3
                    rcases v4 with _ | ⟨y1, _ | ⟨y2, _ | ⟨y3, v5⟩⟩⟩
                    · simp at hlen
                    · simp at hlen
                    · simp only [List.take_succ_cons, List.take_zero] at h5
                      refine ⟨d1, d2, m1, m2, y1, y2, yy, rfl, hd1, hd2, hm1, hm2, h5, ?_, ?_, ?_,
                        ?_, ?_⟩
                      · omega
                      · omega
                      · omega
                      · simp only [centuryYear]; omega
                      · simp only [centuryYear]; exact h.symm
                    · simp at hrest

/-- The parser on a string of the digit form. -/
theorem timeParse_digits (d1 d2 m1 m2 y1 y2 : Char)
    (hd1 : isDigitChar d1 = true) (hd2 : isDigitChar d2 = true)
    (hm1 : isDigitChar m1 = true) (hm2 : isDigitChar m2 = true)
    (hy1 : isDigitChar y1 = true) (hy2 : isDigitChar y2 = true) :
    timeParse [d1, d2, '/', m1, m2, '/', y1, y2] =
      if 1 ≤ digitVal m1 * 10 + digitVal m2 ∧ digitVal m1 * 10 + digitVal m2 ≤ 12
          ∧ 1 ≤ digitVal d1 * 10 + digitVal d2
          ∧ digitVal d1 * 10 + digitVal d2
              ≤ monthLength (digitVal m1 * 10 + digitVal m2)
                  (pivotYear (digitVal y1 * 10 + digitVal y2)) then
        some ⟨pivotYear (digitVal y1 * 10 + digitVal y2), digitVal m1 * 10 + digitVal m2,
          digitVal d1 * 10 + digitVal d2⟩
      else none := by
  have g1 : getnum [d1, d2, '/', m1, m2, '/', y1, y2] true
      = some (digitVal d1 * 10 + digitVal d2, ['/', m1, m2, '/', y1, y2]) :=
    (getnum_fixed_some _ _ _).2 ⟨d1, d2, rfl, hd1, hd2, rfl⟩
  have g2 : getnum [m1, m2, '/', y1, y2] true
      = some (digitVal m1 * 10 + digitVal m2, ['/', y1, y2]) :=
    (getnum_fixed_some _ _ _).2 ⟨m1, m2, rfl, hm1, hm2, rfl⟩
  have s1 : skip ['/', m1, m2, '/', y1, y2] ['/'] = some [m1, m2, '/', y1, y2] :=
    (skip_slash _ _).2 rfl
  have s2 : skip ['/', y1, y2] ['/'] = some [y1, y2] := (skip_slash _ _).2 rfl
  have hp : (if (((digitVal y1 * 10 + digitVal y2 : Nat) : Int)) ≥ 69
        then ((digitVal y1 * 10 + digitVal y2 : Nat) : Int) + 1900
        else ((digitVal y1 * 10 + digitVal y2 : Nat) : Int) + 2000)
      = pivotYear (digitVal y1 * 10 + digitVal y2) := by
    simp only [pivotYear]
    split <;> split <;> omega
  simp only [timeParse, g1, s1, g2, s2, List.length_cons, List.length_nil, List.take_succ_cons,
    List.take_zero, atoi_digits y1 y2 hy1 hy2, List.drop_succ_cons, List.drop_zero, hp]
  by_cases hm : 1 ≤ digitVal m1 * 10 + digitVal m2 ∧ digitVal m1 * 10 + digitVal m2 ≤ 12
  · rw [daysIn_eq_monthLength _ _ hm.1 hm.2]
    by_cases hd : 1 ≤ digitVal d1 * 10 + digitVal d2 ∧ digitVal d1 * 10 + digitVal d2
              ≤ monthLength (digitVal m1 * 10 + digitVal m2)
                  (pivotYear (digitVal y1 * 10 + digitVal y2))
    · have c1 : ¬ (digitVal m1 * 10 + digitVal m2 ≤ 0 ∨ 12 < digitVal m1 * 10 + digitVal m2) := by
        omega
      have c2 : ¬ (digitVal d1 * 10 + digitVal d2 < 1 ∨ digitVal d1 * 10 + digitVal d2
          > monthLength (digitVal m1 * 10 + digitVal m2)
                  (pivotYear (digitVal y1 * 10 + digitVal y2))) := by omega
      have c3 : (1 ≤ digitVal m1 * 10 + digitVal m2 ∧ digitVal m1 * 10 + digitVal m2 ≤ 12
          ∧ 1 ≤ digitVal d1 * 10 + digitVal d2
          ∧ digitVal d1 * 10 + digitVal d2
              ≤ monthLength (digitVal m1 * 10 + digitVal m2)
                  (pivotYear (digitVal y1 * 10 + digitVal y2))) := ⟨hm.1, hm.2, hd.1, hd.2⟩
      simp only [c1, c2, c3, if_false, if_true]
      simp
    · have c1 : ¬ (digitVal m1 * 10 + digitVal m2 ≤ 0 ∨ 12 < digitVal m1 * 10 + digitVal m2) := by
        omega
      have c2 : (digitVal d1 * 10 + digitVal d2 < 1 ∨ digitVal d1 * 10 + digitVal d2
          > monthLength (digitVal m1 * 10 + digitVal m2)
                  (pivotYear (digitVal y1 * 10 + digitVal y2))) := by omega
      have c3 : ¬ (1 ≤ digitVal m1 * 10 + digitVal m2 ∧ digitVal m1 * 10 + digitVal m2 ≤ 12
          ∧ 1 ≤ digitVal d1 * 10 + digitVal d2
          ∧ digitVal d1 * 10 + digitVal d2
              ≤ monthLength (digitVal m1 * 10 + digitVal m2)
                  (pivotYear (digitVal y1 * 10 + digitVal y2))) := by
        rintro ⟨_, _, h3, h4⟩; exact hd ⟨h3, h4⟩
      simp only [c1, c2, c3, if_false, if_true]
      simp
  · have c1 : (digitVal m1 * 10 + digitVal m2 ≤ 0 ∨ 12 < digitVal m1 * 10 + digitVal m2) := by
      omega
    have c3 : ¬ (1 ≤ digitVal m1 * 10 + digitVal m2 ∧ digitVal m1 * 10 + digitVal m2 ≤ 12
          ∧ 1 ≤ digitVal d1 * 10 + digitVal d2
          ∧ digitVal d1 * 10 + digitVal d2
              ≤ monthLength (digitVal m1 * 10 + digitVal m2)
                  (pivotYear (digitVal y1 * 10 + digitVal y2))) := by
      rintro ⟨h1, h2, _, _⟩; exact hm ⟨h1, h2⟩
    simp only [c1, c3, if_false, if_true]

theorem centuryYear_cast (n : Nat) : centuryYear (n : Int) = pivotYear n := by
  simp only [centuryYear, pivotYear]
  split <;> split <;> omega

/-- Shape of the strings that denote a date. -/
theorem ddmmyy_inv (s : String) (d m : Nat) (y : Int) (h : ddmmyy s = some (d, m, y)) :
    ∃ d1 d2 m1 m2 y1 y2, s.toList = [d1, d2, '/', m1, m2, '/', y1, y2]
      ∧ isDigitChar d1 = true ∧ isDigitChar d2 = true
      ∧ isDigitChar m1 = true ∧ isDigitChar m2 = true
      ∧ isDigitChar y1 = true ∧ isDigitChar y2 = true
      ∧ d = digitVal d1 * 10 + digitVal d2 ∧ m = digitVal m1 * 10 + digitVal m2
      ∧ y = pivotYear (digitVal y1 * 10 + digitVal y2)
      ∧ 1 ≤ m ∧ m ≤ 12 ∧ 1 ≤ d ∧ d ≤ monthLength m y := by
  unfold ddmmyy at h
  split at h
  · rename_i d1 d2 s1 m1 m2 s2 y1 y2 hl
    split at h
    · rename_i hc
      dsimp only at h
      split at h
      · rename_i hv
        simp only [Option.some.injEq, Prod.mk.injEq] at h
        obtain ⟨rfl, rfl, rfl⟩ := h
        obtain ⟨hd1, hd2, rfl, hm1, hm2, rfl, hy1, hy2⟩ := hc
        exact ⟨d1, d2, m1, m2, y1, y2, hl, hd1, hd2, hm1, hm2, hy1, hy2, rfl, rfl, rfl,
          hv.1, hv.2.1, hv.2.2.1, hv.2.2.2⟩
      · cases h
    · cases h
  · cases h

/-- Every DD/MM/YY date is parsed to itself by the library parser. -/
theorem timeParse_of_ddmmyy (s : String) (d m : Nat) (y : Int)
    (h : ddmmyy s = some (d, m, y)) : timeParse s.toList = some ⟨y, m, d⟩ := by
  obtain ⟨d1, d2, m1, m2, y1, y2, hl, hd1, hd2, hm1, hm2, hy1, hy2, rfl, rfl, rfl, h1, h2, h3, h4⟩ :=
    ddmmyy_inv s d m y h
  rw [hl, timeParse_digits d1 d2 m1 m2 y1 y2 hd1 hd2 hm1 hm2 hy1 hy2, if_pos ⟨h1, h2, h3, h4⟩]

/-- A string the parser accepts with a year after 2009 is a DD/MM/YY date
(the two-character year was not written with a sign). -/
theorem ddmmyy_of_timeParse (s : String) (t : Time) (h : timeParse s.toList = some t)
    (hy : 2009 < t.year) : ddmmyy s = some (t.day, t.month, t.year) := by
  obtain ⟨d1, d2, m1, m2, y1, y2, yy, hl, hd1, hd2, hm1, hm2, hat, h1, h2, h3, h4, rfl⟩ :=
    timeParse_inv _ t h
  rcases atoi_two_some y1 y2 yy hat with ⟨hy1, hy2, rfl⟩ | ⟨_, hlo, hhi⟩
  · rw [centuryYear_cast] at h4 ⊢
    rw [daysIn_eq_monthLength _ _ h1 h2] at h4
    simp only [ddmmyy, hl, hd1, hd2, hm1, hm2, hy1, hy2, and_self, if_true]
    rw [if_pos ⟨h1, h2, h3, h4⟩]
  · exfalso
    simp only [centuryYear] at hy
    split at hy <;> omega

/-- The gate of the filter loop, as the source computes it, agrees with the
contract: valid DD/MM/YY date of a year in (2014, 2024]. -/
theorem inRange_iff (s : String) :
    inRange s = true ↔ ∃ t, timeParse s.toList = some t ∧ 2014 < t.year ∧ t.year ≤ 2024 := by
  constructor
  · intro h
    unfold inRange at h
    split at h
    · rename_i d m y hd
      simp only [decide_eq_true_eq] at h
      exact ⟨⟨y, m, d⟩, timeParse_of_ddmmyy s d m y hd, h.1, h.2⟩
    · cases h
  · rintro ⟨t, ht, h1, h2⟩
    have := ddmmyy_of_timeParse s t ht (by omega)
    simp [inRange, this, h1, h2]

theorem release_date_not_inRange : inRange "release_date" = false := by decide

/-- One iteration of the filter loop, in terms of the contract. -/
theorem filterLoop_cons (r : Row) (rest out : List Row) :
    filterLoop (r :: rest) out =
      match r[0]? with
      | none => ⟨out, .indexOutOfRange⟩
      | some _ =>
        if retained r = true then
          match r[2]? with
          | none => ⟨out, .indexOutOfRange⟩
          | some title => filterLoop rest (out ++ [[title]])
        else filterLoop rest out := by
  cases h0 : r[0]? with
  | none => simp [filterLoop, h0]
  | some f0 =>
    by_cases hh : f0 = "release_date"
    · subst hh
      simp [filterLoop, h0, retained]
    · cases hp : timeParse f0.toList with
      | none =>
        have hr : inRange f0 = false := by
          cases hi : inRange f0 with
          | false => rfl
          | true =>
            obtain ⟨t, ht, _⟩ := (inRange_iff f0).1 hi
            rw [hp] at ht; cases ht
        have hp2 : timeParse f0.data = none := hp
        simp [filterLoop, h0, retained, hh, isValidDate, hp2, hr]
      | some t =>
        have hp2 : timeParse f0.data = some t := hp
        by_cases hy : 2014 < t.year ∧ t.year ≤ 2024
        · have hr : inRange f0 = true := (inRange_iff f0).2 ⟨t, hp, hy.1, hy.2⟩
          simp [filterLoop, h0, retained, hh, isValidDate, getYearFromDate, hp2, hr, Time.Year, hy]
        · have hr : inRange f0 = false := by
            cases hi : inRange f0 with
            | false => rfl
            | true =>
              obtain ⟨t2, ht, h1, h2⟩ := (inRange_iff f0).1 hi
              rw [hp] at ht
              cases ht
              exact absurd ⟨h1, h2⟩ hy
          have hy2 : ¬ (t.year > 2014 ∧ t.year ≤ 2024) := hy
          simp [filterLoop, h0, retained, isValidDate, getYearFromDate, hp2, hr, Time.Year,
            hy2, hh]

/-! ## The date filter -/

theorem filterLoop_of_three (records : List Row) (out : List Row)
    (h : ∀ r ∈ records, 3 ≤ r.length) :
    filterLoop records out
      = ⟨out ++ (records.filter retained).map (fun r => [r.getD 2 ""]), .completed⟩ := by
  induction records generalizing out with
  | nil => simp [filterLoop]
  | cons r rest ih =>
    have hr := h r (List.mem_cons_self _ _)
    have hrest : ∀ r ∈ rest, 3 ≤ r.length := fun x hx => h x (List.mem_cons_of_mem _ hx)
    rcases r with _ | ⟨a, _ | ⟨b, _ | ⟨c, tl⟩⟩⟩
    · simp at hr
    · simp at hr
    · simp at hr
    · rw [filterLoop_cons]
      by_cases hk : retained (a :: b :: c :: tl) = true
      · simp [hk, ih _ hrest]
      · simp [hk, ih _ hrest]

theorem filterLoop_exit (records : List Row) (out : List Row) (h : ∀ r ∈ records, r ≠ []) :
    (filterLoop records out).exit = .indexOutOfRange
      ↔ ∃ r ∈ records, r.length < 3 ∧ retained r = true := by
  induction records generalizing out with
  | nil => simp [filterLoop]
  | cons r rest ih =>
    have hr := h r (List.mem_cons_self _ _)
    have hrest : ∀ r ∈ rest, r ≠ [] := fun x hx => h x (List.mem_cons_of_mem _ hx)
    rw [filterLoop_cons]
    rcases r with _ | ⟨a, tl⟩
    · exact absurd rfl hr
    · by_cases hk : retained (a :: tl) = true
      · rcases tl with _ | ⟨b, _ | ⟨c, tl⟩⟩
        · simp [hk]
        · simp [hk]
        · simp [hk, ih _ hrest]
      · simp [hk, ih _ hrest]

/-- C1: on rows of at least three fields the date filter ends normally and its
output is the row `title` followed by the third field of exactly the retained
rows, in input order: the rows whose field 0 is not `release_date` and is a
valid DD/MM/YY date of a year in (2014, 2024]. The header row is there and
first also when nothing is retained, and no row with field 0 equal to
`release_date` is among the retained ones. -/
theorem dateFilter_output (records : List Row) (h : ∀ r ∈ records, 3 ≤ r.length) :
    dateFilter records
        = ⟨["title"] :: (records.filter retained).map (fun r => [r.getD 2 ""]), .completed⟩
      ∧ (dateFilter records).written.head? = some ["title"]
      ∧ (records.filter retained = [] → (dateFilter records).written = [["title"]])
      ∧ (∀ r ∈ records, r[0]? = some "release_date" → r ∉ records.filter retained)
      ∧ (∀ r ∈ records, r ∈ records.filter retained ↔
          ∃ f0 d m y, r[0]? = some f0 ∧ f0 ≠ "release_date" ∧ ddmmyy f0 = some (d, m, y)
            ∧ 2014 < y ∧ y ≤ 2024) := by
  have hmain := filterLoop_of_three records [["title"]] h
  have hret : ∀ r : Row, retained r = true ↔
      ∃ f0 d m y, r[0]? = some f0 ∧ f0 ≠ "release_date" ∧ ddmmyy f0 = some (d, m, y)
        ∧ 2014 < y ∧ y ≤ 2024 := by
    intro r
    cases h0 : r[0]? with
    | none => simp [retained, h0]
    | some f0 =>
      cases hd : ddmmyy f0 with
      | none => simp [retained, h0, inRange, hd]
      | some v =>
        obtain ⟨d, m, y⟩ := v
        have h1 : retained r = true ↔ (f0 ≠ "release_date" ∧ 2014 < y ∧ y ≤ 2024) := by
          simp [retained, h0, inRange, hd]
        rw [h1]
        constructor
        · rintro ⟨h1, h2, h3⟩
          exact ⟨f0, d, m, y, rfl, h1, hd, h2, h3⟩
        · rintro ⟨f, d1, m1, y1, hf, h1, hd1, h2, h3⟩
          cases hf
          rw [hd] at hd1
          cases hd1
          exact ⟨h1, h2, h3⟩
  refine ⟨by simpa [dateFilter] using hmain, ?_, ?_, ?_, ?_⟩
  · simp [dateFilter, hmain]
  · intro he
    simp [dateFilter, hmain, he]
  · intro r _ h0 hmem
    have := (List.mem_filter.1 hmem).2
    simp [retained, h0] at this
  · intro r hr
    rw [List.mem_filter, ← hret r]
    simp [hr]

/-- A sample input for `dateFilter_output`. -/
theorem dateFilter_output_witness :
    dateFilter [["release_date", "id", "title"], ["01/01/15", "1", "A"],
        ["31/12/14", "2", "B"], ["x", "3", "C"], ["30/06/24", "4", "D"]]
      = ⟨[["title"], ["A"], ["D"]], .completed⟩ :=
  (dateFilter_output [["release_date", "id", "title"], ["01/01/15", "1", "A"],
        ["31/12/14", "2", "B"], ["x", "3", "C"], ["30/06/24", "4", "D"]]
      (by simp)).1.trans (by decide)

/-- A row whose field 0 is not a valid DD/MM/YY date leaves the output as it
is and the loop goes on with the rows after it, however many fields it has. -/
theorem filterLoop_malformed (s : String) (hs : isDDMMYY s = false) (r : Row)
    (h0 : r[0]? = some s) (rest out : List Row) :
    filterLoop (r :: rest) out = filterLoop rest out := by
  have hr : retained r = false := by
    have : ddmmyy s = none := by
      cases hd : ddmmyy s with
      | none => rfl
      | some v => simp [isDDMMYY, hd] at hs
    simp [retained, h0, inRange, this]
  rw [filterLoop_cons, h0]
  simp [hr]

/-- C2: for a calendar-valid DD/MM/YY string `s` denoting day `d`, month `m`
and pivot-resolved year `y`, the source accepts `s`, `getYearFromDate` returns
`y`, and a row carrying `s` in field 0 has its title written, at any place of
the input, if and only if `2014 < y ≤ 2024`; "01/01/15" is included, "31/12/14"
and "01/01/25" are excluded. -/
theorem valid_date_included_iff (s : String) (d m : Nat) (y : Int)
    (hs : ddmmyy s = some (d, m, y)) (r : Row) (title : String)
    (h0 : r[0]? = some s) (h2 : r[2]? = some title) (rest out : List Row) :
    isValidDate s = true ∧ getYearFromDate s = .ok y
      ∧ filterLoop (r :: rest) out
          = filterLoop rest (if 2014 < y ∧ y ≤ 2024 then out ++ [[title]] else out)
      ∧ ((dateFilter [r]).written = [["title"], [title]] ↔ 2014 < y ∧ y ≤ 2024)
      ∧ ((dateFilter [r]).written = [["title"]] ↔ ¬ (2014 < y ∧ y ≤ 2024))
      ∧ (dateFilter [["01/01/15", "x", "T"]]).written = [["title"], ["T"]]
      ∧ (dateFilter [["31/12/14", "x", "T"]]).written = [["title"]]
      ∧ (dateFilter [["01/01/25", "x", "T"]]).written = [["title"]] := by
  have hp := timeParse_of_ddmmyy s d m y hs
  have hp2 : timeParse s.data = some ⟨y, m, d⟩ := hp
  have hr : retained r = decide (2014 < y ∧ y ≤ 2024) := by
    have hne : s ≠ "release_date" := by
      rintro rfl
      have hnone : ddmmyy "release_date" = none := by decide
      rw [hnone] at hs
      cases hs
    simp [retained, h0, inRange, hs, hne]
  have hstep : ∀ rest out, filterLoop (r :: rest) out
      = filterLoop rest (if 2014 < y ∧ y ≤ 2024 then out ++ [[title]] else out) := by
    intro rest out
    rw [filterLoop_cons, h0, hr, h2]
    by_cases hy : 2014 < y ∧ y ≤ 2024
    · simp [hy]
    · simp [hy]
  refine ⟨by simp [isValidDate, hp2], by simp [getYearFromDate, hp2, Time.Year], hstep rest out,
    ?_, ?_, by decide, by decide, by decide⟩
  · rw [dateFilter, hstep]
    by_cases hy : 2014 < y ∧ y ≤ 2024
    · simp [hy, filterLoop]
    · simp [hy, filterLoop]
  · rw [dateFilter, hstep]
    by_cases hy : 2014 < y ∧ y ≤ 2024
    · simp [hy, filterLoop]
    · simp [hy, filterLoop]

/-- A sample date for `valid_date_included_iff`: 29 February 2024. -/
theorem valid_date_included_iff_witness :
    getYearFromDate "29/02/24" = .ok 2024
      ∧ filterLoop [["29/02/24", "7", "Leap"], ["x", "8", "Y"]] [["title"]]
          = filterLoop [["x", "8", "Y"]] [["title"], ["Leap"]] :=
  have h := valid_date_included_iff "29/02/24" 29 2 2024 (by decide)
    ["29/02/24", "7", "Leap"] "Leap" (by decide) (by decide) [["x", "8", "Y"]] [["title"]]
  ⟨h.2.1, h.2.2.1⟩

/-- C3: the source accepts "01/01/+5", which is not in DD/MM/YY form: the
two-character year goes through the sign-accepting `atoi` of the date library
and comes out as 2005 (a minus sign is accepted in the same way). The shapes
the claim names are rejected, and a run over a row with such a date goes on to
the rows after it and writes nothing for it. -/
theorem isValidDate_signed_year :
    isDDMMYY "01/01/+5" = false ∧ isValidDate "01/01/+5" = true
      ∧ getYearFromDate "01/01/+5" = .ok 2005
      ∧ isValidDate "29/02/+4" = true ∧ getYearFromDate "29/02/+4" = .ok 2004
      ∧ isValidDate "not-a-date" = false ∧ isValidDate "32/13/99" = false
      ∧ isValidDate "31/04/20" = false ∧ isValidDate "1/1/20" = false
      ∧ isValidDate "01/01/20 " = false
      ∧ dateFilter [["01/01/+5", "1", "A"], ["32/13/99", "2", "B"], ["01/01/15", "3", "C"]]
          = ⟨[["title"], ["C"]], .completed⟩ := by
  decide

/-- C10: on non-empty rows the filter loop ends with an index out of range
exactly when some row has fewer than three fields and is retained (field 0 is
not `release_date` and is a valid DD/MM/YY date of a year in (2014, 2024]);
it ends normally when every row has three fields or more, and when every
short row is one that is not retained. -/
theorem dateFilter_panics_iff (records : List Row) (h : ∀ r ∈ records, r ≠ []) :
    ((dateFilter records).exit = .indexOutOfRange
        ↔ ∃ r ∈ records, r.length < 3 ∧ retained r = true)
      ∧ ((∀ r ∈ records, 3 ≤ r.length) → (dateFilter records).exit = .completed)
      ∧ ((∀ r ∈ records, r.length < 3 → retained r = false)
          → (dateFilter records).exit = .completed) := by
  have hiff := filterLoop_exit records [["title"]] h
  have hcases : ∀ e : FilterExit, e ≠ .indexOutOfRange → e = .completed := by
    intro e he
    cases e with
    | completed => rfl
    | indexOutOfRange => exact absurd rfl he
  refine ⟨hiff, ?_, ?_⟩
  · intro h3
    apply hcases
    intro hx
    obtain ⟨r, hr, hlt, _⟩ := hiff.1 hx
    have := h3 r hr
    omega
  · intro hshort
    apply hcases
    intro hx
    obtain ⟨r, hr, hlt, hk⟩ := hiff.1 hx
    rw [hshort r hr hlt] at hk
    cases hk

/-- A sample input for `dateFilter_panics_iff`: the second row is retained and
has two fields. -/
theorem dateFilter_panics_iff_witness :
    (dateFilter [["01/01/15", "1", "A"], ["01/01/16", "2"], ["01/01/17", "3", "C"]]).exit
      = .indexOutOfRange :=
  (dateFilter_panics_iff [["01/01/15", "1", "A"], ["01/01/16", "2"], ["01/01/17", "3", "C"]]
    (by simp)).1.2 ⟨["01/01/16", "2"], by simp, by decide, by decide⟩

/-! ## The enricher -/

theorem writeAll_some (content rows : List Row) :
    writeAll (some content) rows = some (content ++ rows) := by
  induction rows generalizing content with
  | nil => simp [writeAll]
  | cons r rows ih =>
    have := ih (content ++ [r])
    simp only [writeAll, List.foldl_cons, writeToCSV] at this ⊢
    simpa using this

theorem writeAll_none_cons (r : Row) (rows : List Row) :
    writeAll none (r :: rows) = some (header :: r :: rows) := by
  have := writeAll_some ([header] ++ [r]) rows
  simp only [writeAll, List.foldl_cons, writeToCSV] at this ⊢
  simpa using this

theorem writeAll_append (file : Option (List Row)) (xs ys : List Row) :
    writeAll file (xs ++ ys) = writeAll (writeAll file xs) ys := by
  simp [writeAll, List.foldl_append]

theorem writeAll_cons (file : Option (List Row)) (r : Row) (rows : List Row) :
    writeAll file (r :: rows) = writeAll (writeToCSV file r) rows := rfl

/-- The four kinds of step: no record read; metadata lookup fails; metadata
found and trailer lookup fails; both lookups succeed. -/
theorem step_cases (apiKey youtubeAPIKey : String) (s : Step) :
    (s.title? = none ∧ s.metadataFails apiKey = false
        ∧ s.trailerFails apiKey youtubeAPIKey = false ∧ s.row? apiKey youtubeAPIKey = none)
      ∨ (∃ t, s.title? = some t ∧ s.metadataFails apiKey = true
        ∧ s.trailerFails apiKey youtubeAPIKey = false ∧ s.row? apiKey youtubeAPIKey = none)
      ∨ (∃ t, s.title? = some t ∧ s.metadataFails apiKey = false
        ∧ s.trailerFails apiKey youtubeAPIKey = true ∧ s.row? apiKey youtubeAPIKey = none)
      ∨ (∃ t row, s.title? = some t ∧ s.metadataFails apiKey = false
        ∧ s.trailerFails apiKey youtubeAPIKey = false
        ∧ s.row? apiKey youtubeAPIKey = some row) := by
  cases hr : s.read with
  | parseError e =>
    left
    simp [Step.title?, Step.metadataFails, Step.trailerFails, Step.row?, hr]
  | record title others =>
    right
    rcases hf : fetchMovieDetails s.omdb apiKey title with ⟨data, _ | e⟩
    · rcases hy : searchActualYouTubeTrailer s.youtube youtubeAPIKey data.Title data.Year
        with ⟨link, _ | e⟩
      · right; right
        exact ⟨title, outputRow data link, by
          simp [Step.title?, Step.metadataFails, Step.trailerFails, Step.row?, hr, hf, hy]⟩
      · right; left
        exact ⟨title, by
          simp [Step.title?, Step.metadataFails, Step.trailerFails, Step.row?, hr, hf, hy]⟩
    · left
      exact ⟨title, by
        simp [Step.title?, Step.metadataFails, Step.trailerFails, Step.row?, hr, hf]⟩

theorem enrichLoop_full (apiKey youtubeAPIKey : String) (s : Step) (rest : List Step)
    (st : EnrichState) (h : batchSize ≤ st.movieCount) :
    enrichLoop apiKey youtubeAPIKey (s :: rest) st = (st, .batchFull) := by
  have h2 : st.movieCount ≥ batchSize := h
  simp [enrichLoop, h2]

theorem enrichLoop_parseError (apiKey youtubeAPIKey : String) (s : Step) (rest : List Step)
    (st : EnrichState) (h : st.movieCount < batchSize) (ht : s.title? = none) :
    enrichLoop apiKey youtubeAPIKey (s :: rest) st = enrichLoop apiKey youtubeAPIKey rest st := by
  have h2 : ¬ (st.movieCount ≥ batchSize) := by omega
  cases hr : s.read with
  | parseError e => simp [enrichLoop, h2, hr]
  | record title others => simp [Step.title?, hr] at ht

theorem enrichLoop_skip (apiKey youtubeAPIKey : String) (s : Step) (rest : List Step)
    (st : EnrichState) (t : String) (h : st.movieCount < batchSize) (ht : s.title? = some t)
    (hm : s.metadataFails apiKey = true) :
    enrichLoop apiKey youtubeAPIKey (s :: rest) st
      = enrichLoop apiKey youtubeAPIKey rest ⟨st.file, st.movieCount, st.queried ++ [t]⟩ := by
  have h2 : ¬ (st.movieCount ≥ batchSize) := by omega
  cases hr : s.read with
  | parseError e => simp [Step.title?, hr] at ht
  | record title others =>
    simp only [Step.title?, hr, Option.some.injEq] at ht
    subst ht
    rcases hf : fetchMovieDetails s.omdb apiKey title with ⟨data, _ | e⟩
    · simp [Step.metadataFails, hr, hf] at hm
    · simp [enrichLoop, h2, hr, hf]

theorem enrichLoop_fatal (apiKey youtubeAPIKey : String) (s : Step) (rest : List Step)
    (st : EnrichState) (t : String) (h : st.movieCount < batchSize) (ht : s.title? = some t)
    (hm : s.trailerFails apiKey youtubeAPIKey = true) :
    ∃ err, enrichLoop apiKey youtubeAPIKey (s :: rest) st
      = (⟨st.file, st.movieCount, st.queried ++ [t]⟩, .fatal err) := by
  have h2 : ¬ (st.movieCount ≥ batchSize) := by omega
  cases hr : s.read with
  | parseError e => simp [Step.title?, hr] at ht
  | record title others =>
    simp only [Step.title?, hr, Option.some.injEq] at ht
    subst ht
    rcases hf : fetchMovieDetails s.omdb apiKey title with ⟨data, _ | e⟩
    · rcases hy : searchActualYouTubeTrailer s.youtube youtubeAPIKey data.Title data.Year
        with ⟨link, _ | e⟩
      · simp [Step.trailerFails, hr, hf, hy] at hm
      · exact ⟨e, by simp [enrichLoop, h2, hr, hf, hy]⟩
    · simp [Step.trailerFails, hr, hf] at hm

theorem enrichLoop_written (apiKey youtubeAPIKey : String) (s : Step) (rest : List Step)
    (st : EnrichState) (t : String) (row : Row) (h : st.movieCount < batchSize)
    (ht : s.title? = some t) (hrow : s.row? apiKey youtubeAPIKey = some row) :
    enrichLoop apiKey youtubeAPIKey (s :: rest) st
      = enrichLoop apiKey youtubeAPIKey rest
          ⟨writeToCSV st.file row, st.movieCount + 1, st.queried ++ [t]⟩ := by
  have h2 : ¬ (st.movieCount ≥ batchSize) := by omega
  cases hr : s.read with
  | parseError e => simp [Step.title?, hr] at ht
  | record title others =>
    simp only [Step.title?, hr, Option.some.injEq] at ht
    subst ht
    rcases hf : fetchMovieDetails s.omdb apiKey title with ⟨data, _ | e⟩
    · rcases hy : searchActualYouTubeTrailer s.youtube youtubeAPIKey data.Title data.Year
        with ⟨link, _ | e⟩
      · simp only [Step.row?, hr, hf, hy, Option.some.injEq] at hrow
        subst hrow
        simp [enrichLoop, h2, hr, hf, hy]
      · simp [Step.row?, hr, hf, hy] at hrow
    · simp [Step.row?, hr, hf] at hrow

/-- What a run of the loop does, in terms of the prefix of the input it got
through: the titles logged are those of the prefix, the rows appended are
those of the steps of the prefix whose two lookups succeed, the counter counts
these rows and never passes `batchSize`. -/
theorem enrichLoop_processed (apiKey youtubeAPIKey : String) (steps : List Step)
    (st : EnrichState) (hst : st.movieCount ≤ batchSize) :
    ∃ n, n ≤ steps.length
      ∧ (enrichLoop apiKey youtubeAPIKey steps st).1.queried
          = st.queried ++ titlesOf (steps.take n)
      ∧ (enrichLoop apiKey youtubeAPIKey steps st).1.file
          = writeAll st.file ((steps.take n).filterMap (Step.row? apiKey youtubeAPIKey))
      ∧ (enrichLoop apiKey youtubeAPIKey steps st).1.movieCount
          = st.movieCount + ((steps.take n).filterMap (Step.row? apiKey youtubeAPIKey)).length
      ∧ (enrichLoop apiKey youtubeAPIKey steps st).1.movieCount ≤ batchSize
      ∧ ((enrichLoop apiKey youtubeAPIKey steps st).2 = .batchFull →
          (enrichLoop apiKey youtubeAPIKey steps st).1.movieCount = batchSize ∧ n < steps.length)
      ∧ ((enrichLoop apiKey youtubeAPIKey steps st).2 = .endOfInput → n = steps.length)
      ∧ (∀ e, (enrichLoop apiKey youtubeAPIKey steps st).2 = .fatal e →
          ∃ s ∈ steps, s.trailerFails apiKey youtubeAPIKey = true)
      ∧ ((∀ s ∈ steps.take n, s.metadataFails apiKey = false) →
          st.movieCount + (titlesOf (steps.take n)).length ≤ batchSize) := by
  induction steps generalizing st with
  | nil =>
    refine ⟨0, le_refl _, ?_, ?_, ?_, ?_, ?_, ?_, ?_, ?_⟩ <;>
      simp [enrichLoop, titlesOf, writeAll, hst]
  | cons s rest ih =>
    by_cases hfull : batchSize ≤ st.movieCount
    · rw [enrichLoop_full apiKey youtubeAPIKey s rest st hfull]
      refine ⟨0, Nat.zero_le _, ?_, ?_, ?_, ?_, ?_, ?_, ?_, ?_⟩
      · simp [titlesOf]
      · simp [writeAll]
      · simp
      · exact hst
      · intro _; exact ⟨le_antisymm hst hfull, by simp⟩
      · intro h; cases h
      · intro e h; cases h
      · intro _; simpa [titlesOf] using hst
    · have hlt : st.movieCount < batchSize := by omega
      rcases step_cases apiKey youtubeAPIKey s with
        ⟨ht, hmf, htf, hrow⟩ | ⟨t, ht, hmf, htf, hrow⟩ | ⟨t, ht, hmf, htf, hrow⟩
          | ⟨t, row, ht, hmf, htf, hrow⟩
      · -- no record read
        rw [enrichLoop_parseError apiKey youtubeAPIKey s rest st hlt ht]
        obtain ⟨n, hn, h1, h2, h3, h4, h5, h6, h7, h8⟩ := ih st hst
        refine ⟨n + 1, by simpa using hn, ?_, ?_, ?_, h4, ?_, ?_, ?_, ?_⟩
        · simpa [titlesOf, List.take_succ_cons, List.filterMap_cons, ht] using h1
        · simpa [List.take_succ_cons, List.filterMap_cons, hrow] using h2
        · simpa [List.take_succ_cons, List.filterMap_cons, hrow] using h3
        · intro h; exact ⟨(h5 h).1, by simpa using (h5 h).2⟩
        · intro h; simpa using h6 h
        · intro e h
          obtain ⟨x, hx, hxt⟩ := h7 e h
          exact ⟨x, List.mem_cons_of_mem _ hx, hxt⟩
        · intro hall
          have := h8 (fun x hx => hall x (by simp [List.take_succ_cons, hx]))
          simpa [titlesOf, List.take_succ_cons, List.filterMap_cons, ht] using this
      · -- metadata lookup fails: the title is skipped
        rw [enrichLoop_skip apiKey youtubeAPIKey s rest st t hlt ht hmf]
        obtain ⟨n, hn, h1, h2, h3, h4, h5, h6, h7, h8⟩ :=
          ih ⟨st.file, st.movieCount, st.queried ++ [t]⟩ hst
        refine ⟨n + 1, by simpa using hn, ?_, ?_, ?_, h4, ?_, ?_, ?_, ?_⟩
        · simpa [titlesOf, List.take_succ_cons, List.filterMap_cons, ht] using h1
        · simpa [List.take_succ_cons, List.filterMap_cons, hrow] using h2
        · simpa [List.take_succ_cons, List.filterMap_cons, hrow] using h3
        · intro h; exact ⟨(h5 h).1, by simpa using (h5 h).2⟩
        · intro h; simpa using h6 h
        · intro e h
          obtain ⟨x, hx, hxt⟩ := h7 e h
          exact ⟨x, List.mem_cons_of_mem _ hx, hxt⟩
        · intro hall
          have := hall s (by simp [List.take_succ_cons])
          rw [hmf] at this
          cases this
      · -- trailer lookup fails: the process ends
        obtain ⟨err, herr⟩ := enrichLoop_fatal apiKey youtubeAPIKey s rest st t hlt ht htf
        rw [herr]
        refine ⟨1, by simp, ?_, ?_, ?_, hst, ?_, ?_, ?_, ?_⟩
        · simp [titlesOf, List.filterMap_cons, ht]
        · simp [List.filterMap_cons, hrow, writeAll]
        · simp [List.filterMap_cons, hrow]
        · intro h; cases h
        · intro h; cases h
        · intro e _; exact ⟨s, List.mem_cons_self _ _, htf⟩
        · intro _
          simp only [titlesOf, List.take_succ_cons, List.take_zero, List.filterMap_cons, ht,
            List.filterMap_nil, List.length_cons, List.length_nil]
          omega
      · -- both lookups succeed: a row is written
        rw [enrichLoop_written apiKey youtubeAPIKey s rest st t row hlt ht hrow]
        obtain ⟨n, hn, h1, h2, h3, h4, h5, h6, h7, h8⟩ :=
          ih ⟨writeToCSV st.file row, st.movieCount + 1, st.queried ++ [t]⟩ hlt
        refine ⟨n + 1, by simpa using hn, ?_, ?_, ?_, h4, ?_, ?_, ?_, ?_⟩
        · simpa [titlesOf, List.take_succ_cons, List.filterMap_cons, ht] using h1
        · simpa [List.take_succ_cons, List.filterMap_cons, hrow, writeAll_cons] using h2
        · rw [h3]
          simp only [List.take_succ_cons, List.filterMap_cons, hrow, List.length_cons]
          omega
        · intro h; exact ⟨(h5 h).1, by simpa using (h5 h).2⟩
        · intro h; simpa using h6 h
        · intro e h
          obtain ⟨x, hx, hxt⟩ := h7 e h
          exact ⟨x, List.mem_cons_of_mem _ hx, hxt⟩
        · intro hall
          have := h8 (fun x hx => hall x (by simp [List.take_succ_cons, hx]))
          simp only [titlesOf, List.take_succ_cons, List.filterMap_cons, ht,
            List.length_cons] at this ⊢
          omega

/-- A prefix of the input without trailer failure whose rows stay below the
ceiling is processed to its end. -/
theorem enrichLoop_through (apiKey youtubeAPIKey : String) (pre rest : List Step)
    (st : EnrichState)
    (hpre : ∀ p ∈ pre, p.trailerFails apiKey youtubeAPIKey = false)
    (hcount : st.movieCount + (pre.filterMap (Step.row? apiKey youtubeAPIKey)).length
      < batchSize) :
    enrichLoop apiKey youtubeAPIKey (pre ++ rest) st
      = enrichLoop apiKey youtubeAPIKey rest
          ⟨writeAll st.file (pre.filterMap (Step.row? apiKey youtubeAPIKey)),
            st.movieCount + (pre.filterMap (Step.row? apiKey youtubeAPIKey)).length,
            st.queried ++ titlesOf pre⟩ := by
  induction pre generalizing st with
  | nil => simp [writeAll, titlesOf]
  | cons s pre ih =>
    have hpre2 : ∀ p ∈ pre, p.trailerFails apiKey youtubeAPIKey = false :=
      fun x hx => hpre x (List.mem_cons_of_mem _ hx)
    have hs := hpre s (List.mem_cons_self _ _)
    rcases step_cases apiKey youtubeAPIKey s with
      ⟨ht, hmf, htf, hrow⟩ | ⟨t, ht, hmf, htf, hrow⟩ | ⟨t, ht, hmf, htf, hrow⟩
        | ⟨t, row, ht, hmf, htf, hrow⟩
    · simp only [List.filterMap_cons, hrow] at hcount
      rw [List.cons_append, enrichLoop_parseError apiKey youtubeAPIKey s _ st (by omega) ht,
        ih st hpre2 hcount]
      simp [titlesOf, List.filterMap_cons, ht, hrow]
    · simp only [List.filterMap_cons, hrow] at hcount
      rw [List.cons_append, enrichLoop_skip apiKey youtubeAPIKey s _ st t (by omega) ht hmf,
        ih ⟨st.file, st.movieCount, st.queried ++ [t]⟩ hpre2 hcount]
      simp [titlesOf, List.filterMap_cons, ht, hrow]
    · rw [hs] at htf
      cases htf
    · simp only [List.filterMap_cons, hrow, List.length_cons] at hcount
      rw [List.cons_append,
        enrichLoop_written apiKey youtubeAPIKey s _ st t row (by omega) ht hrow,
        ih ⟨writeToCSV st.file row, st.movieCount + 1, st.queried ++ [t]⟩ hpre2
          (by show st.movieCount + 1 + _ < batchSize; omega)]
      simp only [titlesOf, List.filterMap_cons, ht, hrow, writeAll_cons, List.length_cons,
        List.append_assoc, List.singleton_append]
      congr 2
      omega

/-- A run gets at least through every initial part of the input that has no
failed trailer search and fewer rows than the ceiling: the titles of that part
are all looked up and its rows all written, in order, before anything else. -/
theorem enrich_reaches (apiKey youtubeAPIKey : String) (steps : List Step)
    (file : Option (List Row)) (k : Nat)
    (hk : ∀ p ∈ steps.take k, p.trailerFails apiKey youtubeAPIKey = false)
    (hcount : ((steps.take k).filterMap (Step.row? apiKey youtubeAPIKey)).length < batchSize) :
    ∃ moreTitles moreRows,
      (enrich apiKey youtubeAPIKey steps file).1.queried
          = titlesOf (steps.take k) ++ moreTitles
        ∧ (enrich apiKey youtubeAPIKey steps file).1.file
          = writeAll file
              ((steps.take k).filterMap (Step.row? apiKey youtubeAPIKey) ++ moreRows) := by
  have h0 : (0 : Nat) + ((steps.take k).filterMap (Step.row? apiKey youtubeAPIKey)).length
      < batchSize := by omega
  have hthrough := enrichLoop_through apiKey youtubeAPIKey (steps.take k) (steps.drop k)
    ⟨file, 0, []⟩ hk h0
  rw [List.take_append_drop] at hthrough
  obtain ⟨n, _, h1, h2, _⟩ := enrichLoop_processed apiKey youtubeAPIKey (steps.drop k)
    ⟨writeAll file ((steps.take k).filterMap (Step.row? apiKey youtubeAPIKey)),
      0 + ((steps.take k).filterMap (Step.row? apiKey youtubeAPIKey)).length,
      [] ++ titlesOf (steps.take k)⟩ (by show 0 + _ ≤ batchSize; omega)
  refine ⟨titlesOf ((steps.drop k).take n),
    ((steps.drop k).take n).filterMap (Step.row? apiKey youtubeAPIKey), ?_, ?_⟩
  · rw [enrich, hthrough, h1]
    simp
  · rw [enrich, hthrough, h2, writeAll_append]

/-- C4: with the file absent or a list of rows, `writeToCSV` called on the
rows r1..rn (n ≥ 1) in turn leaves, from an absent file, the 12-column header
followed by r1..rn, and from an existing file with content `c`, `c` followed
by r1..rn; over any further runs the file only grows by the rows written, so
the header stands once, before the first data row. -/
theorem writeToCSV_header_once (rows : List Row) (hn : rows ≠ []) (c : List Row)
    (runs : List (List Row)) :
    rows.foldl writeToCSV none
        = some (["Title", "Year", "Rated", "Release Date", "Runtime", "Genre", "Director",
            "Writer", "Actors", "Language", "Plot", "Trailer Link"] :: rows)
      ∧ rows.foldl writeToCSV (some c) = some (c ++ rows)
      ∧ runs.foldl (fun file run => run.foldl writeToCSV file) (rows.foldl writeToCSV none)
          = some (["Title", "Year", "Rated", "Release Date", "Runtime", "Genre", "Director",
              "Writer", "Actors", "Language", "Plot", "Trailer Link"] :: (rows ++ runs.flatten))
      ∧ runs.foldl (fun file run => run.foldl writeToCSV file) (some c)
          = some (c ++ runs.flatten) := by
  have hruns : ∀ (runs : List (List Row)) (c : List Row),
      runs.foldl (fun file run => run.foldl writeToCSV file) (some c) = some (c ++ runs.flatten) := by
    intro runs
    induction runs with
    | nil => simp
    | cons run runs ih =>
      intro c
      have h1 : run.foldl writeToCSV (some c) = some (c ++ run) := writeAll_some c run
      simp only [List.foldl_cons, h1, ih, List.flatten_cons, List.append_assoc]
  obtain ⟨r, rs, rfl⟩ := List.exists_cons_of_ne_nil hn
  have h0 : (r :: rs).foldl writeToCSV none = some (header :: r :: rs) := writeAll_none_cons r rs
  have hh : header = ["Title", "Year", "Rated", "Release Date", "Runtime", "Genre", "Director",
      "Writer", "Actors", "Language", "Plot", "Trailer Link"] := rfl
  refine ⟨by rw [h0, hh], writeAll_some c (r :: rs), ?_, hruns runs c⟩
  rw [h0, hruns, hh]
  simp

/-- A sample for `writeToCSV_header_once`: two rows written to an absent
file, then read back with the header in front. -/
theorem writeToCSV_header_once_witness :
    [["a"], ["b"]].foldl writeToCSV none
      = some (["Title", "Year", "Rated", "Release Date", "Runtime", "Genre", "Director",
            "Writer", "Actors", "Language", "Plot", "Trailer Link"] :: [["a"], ["b"]]) :=
  (writeToCSV_header_once [["a"], ["b"]] (by simp) [] []).1

/-- C6, as the code has it: on a parsed response `fetchMovieDetails` fails
exactly when the status field is the literal "False", and the failure then
carries the error text of the API after "OMDB API error: "; with any other
status it succeeds and returns the parsed record, whatever the error field
holds. -/
theorem fetchMovieDetails_parsed (get : Request → Fetched Data) (apiKey movieTitle : String)
    (data : Data) (h : get (omdbRequest apiKey movieTitle) = .parsed data) :
    (data.Response = "False" →
        fetchMovieDetails get apiKey movieTitle = (data, some ("OMDB API error: " ++ data.Error)))
      ∧ (data.Response ≠ "False" → fetchMovieDetails get apiKey movieTitle = (data, none))
      ∧ ((fetchMovieDetails get apiKey movieTitle).2 = none ↔ data.Response ≠ "False") := by
  by_cases hr : data.Response = "False"
  · simp [fetchMovieDetails, h, hr]
  · simp [fetchMovieDetails, h, hr]

/-- A sample for `fetchMovieDetails_parsed`: a not-found answer. -/
theorem fetchMovieDetails_parsed_witness :
    fetchMovieDetails (fun _ => .parsed (sampleData "False" "Movie not found!")) "k" "Nope"
      = (sampleData "False" "Movie not found!", some "OMDB API error: Movie not found!") :=
  (fetchMovieDetails_parsed (fun _ => .parsed (sampleData "False" "Movie not found!")) "k" "Nope"
    (sampleData "False" "Movie not found!") rfl).1 rfl

/-- C6 as stated fails: a parsed response without a status field and with an
error message, and one with status "True" and an error message, both make
`fetchMovieDetails` succeed. -/
theorem fetchMovieDetails_counterexample :
    (fetchMovieDetails (fun _ => .parsed (sampleData "" "Movie not found!")) "k" "Nope").2 = none
      ∧ (sampleData "" "Movie not found!").Response = ""
      ∧ (sampleData "" "Movie not found!").Error = "Movie not found!"
      ∧ (fetchMovieDetails (fun _ => .parsed (sampleData "True" "Request limit reached!"))
          "k" "Inception").2 = none := by
  decide

/-- C8: `searchActualYouTubeTrailer` asks for the text "title year trailer",
type video, at most one result; on a response with a first item it returns
the watch-page URL of that item's video identifier and no error, on a
response without items the error "no trailer found" and the empty link. The
result depends on the environment through this one request only. -/
theorem searchActualYouTubeTrailer_result (get : Request → Fetched SearchResult)
    (apiKey title year : String) :
    (youtubeRequest apiKey title year).params.lookup "q" = some (title ++ " " ++ year ++ " trailer")
      ∧ (youtubeRequest apiKey title year).params.lookup "maxResults" = some "1"
      ∧ (youtubeRequest apiKey title year).params.lookup "type" = some "video"
      ∧ (∀ item items, get (youtubeRequest apiKey title year) = .parsed ⟨item :: items⟩ →
          searchActualYouTubeTrailer get apiKey title year
            = ("https://www.youtube.com/watch?v=" ++ item.VideoID, none))
      ∧ (get (youtubeRequest apiKey title year) = .parsed ⟨[]⟩ →
          searchActualYouTubeTrailer get apiKey title year = ("", some "no trailer found"))
      ∧ (∀ get2 : Request → Fetched SearchResult,
          get2 (youtubeRequest apiKey title year) = get (youtubeRequest apiKey title year) →
          searchActualYouTubeTrailer get2 apiKey title year
            = searchActualYouTubeTrailer get apiKey title year) := by
  refine ⟨by simp [youtubeRequest, List.lookup], by simp [youtubeRequest, List.lookup],
    by simp [youtubeRequest, List.lookup], ?_, ?_, ?_⟩
  · intro item items h
    simp [searchActualYouTubeTrailer, h]
  · intro h
    simp [searchActualYouTubeTrailer, h]
  · intro get2 h
    simp [searchActualYouTubeTrailer, h]

/-- A sample for `searchActualYouTubeTrailer_result`: one video found. -/
theorem searchActualYouTubeTrailer_result_witness :
    searchActualYouTubeTrailer (fun _ => .parsed ⟨[⟨"YoHD9XEInc0"⟩]⟩) "y" "Inception" "2010"
      = ("https://www.youtube.com/watch?v=" ++ "YoHD9XEInc0", none) :=
  (searchActualYouTubeTrailer_result (fun _ => .parsed ⟨[⟨"YoHD9XEInc0"⟩]⟩) "y" "Inception"
    "2010").2.2.2.1 ⟨"YoHD9XEInc0"⟩ [] rfl

/-- C7: a title the metadata API reports as not found (status "False") gives
no row and does not end the run. In closed form: when such a title stands
anywhere in an input whose other titles have no failed trailer search and
fewer than 100 successes, the run reaches the end of the input, every title
is looked up, and the file holds the rows of exactly the titles whose metadata
and trailer lookups both succeed, in input order. For every input, the run
gets through every initial part without failed trailer search and below the
ceiling, skipped titles included, and what it appends are the rows of the
successful titles of the part it got through. For "Inception" (found, with a
trailer) and "Nonexistent Movie XYZ123" (not found), in either order, the new
file holds the header and the one row of Inception with its watch-page URL. -/
theorem not_found_skipped (apiKey youtubeAPIKey : String) (pre : List Step) (s : Step)
    (post rest : List Step) (st : EnrichState) (title : String) (others : List String)
    (data : Data)
    (hread : s.read = .record title others)
    (hresp : s.omdb (omdbRequest apiKey title) = .parsed data)
    (hnf : data.Response = "False") (hst : st.movieCount < batchSize)
    (hothers : ∀ p ∈ pre ++ post, p.trailerFails apiKey youtubeAPIKey = false)
    (hcount : ((pre ++ post).filterMap (Step.row? apiKey youtubeAPIKey)).length < batchSize)
    (steps : List Step) (file : Option (List Row)) :
    enrich apiKey youtubeAPIKey (pre ++ s :: post) file
        = (⟨writeAll file ((pre ++ post).filterMap (Step.row? apiKey youtubeAPIKey)),
            ((pre ++ post).filterMap (Step.row? apiKey youtubeAPIKey)).length,
            titlesOf pre ++ title :: titlesOf post⟩, .endOfInput)
      ∧ (pre ++ s :: post).filterMap (Step.row? apiKey youtubeAPIKey)
        = (pre ++ post).filterMap (Step.row? apiKey youtubeAPIKey)
      ∧ enrichLoop apiKey youtubeAPIKey (s :: rest) st
        = enrichLoop apiKey youtubeAPIKey rest ⟨st.file, st.movieCount, st.queried ++ [title]⟩
      ∧ s.row? apiKey youtubeAPIKey = none
      ∧ (∃ n, n ≤ steps.length
          ∧ (enrich apiKey youtubeAPIKey steps file).1.queried = titlesOf (steps.take n)
          ∧ (enrich apiKey youtubeAPIKey steps file).1.file
              = writeAll file ((steps.take n).filterMap (Step.row? apiKey youtubeAPIKey)))
      ∧ (∀ k, (∀ p ∈ steps.take k, p.trailerFails apiKey youtubeAPIKey = false) →
          ((steps.take k).filterMap (Step.row? apiKey youtubeAPIKey)).length < batchSize →
          ∃ moreTitles moreRows,
            (enrich apiKey youtubeAPIKey steps file).1.queried
                = titlesOf (steps.take k) ++ moreTitles
              ∧ (enrich apiKey youtubeAPIKey steps file).1.file
                = writeAll file
                    ((steps.take k).filterMap (Step.row? apiKey youtubeAPIKey) ++ moreRows))
      ∧ ((enrich apiKey youtubeAPIKey steps file).2 = .endOfInput →
          (enrich apiKey youtubeAPIKey steps file).1.file
              = writeAll file (steps.filterMap (Step.row? apiKey youtubeAPIKey)))
      ∧ enrich "k" "y"
          [foundStep "Inception" [⟨"YoHD9XEInc0"⟩], notFoundStep "Nonexistent Movie XYZ123"] none
          = (⟨some [["Title", "Year", "Rated", "Release Date", "Runtime", "Genre", "Director",
                "Writer", "Actors", "Language", "Plot", "Trailer Link"],
              ["Inception", "2010", "PG-13", "16 Jul 2010", "148 min",
                "Action, Adventure, Sci-Fi", "Christopher Nolan", "Christopher Nolan",
                "Leonardo DiCaprio", "English", "A thief who steals corporate secrets.",
                "https://www.youtube.com/watch?v=YoHD9XEInc0"]], 1,
              ["Inception", "Nonexistent Movie XYZ123"]⟩, .endOfInput)
      ∧ enrich "k" "y"
          [notFoundStep "Nonexistent Movie XYZ123", foundStep "Inception" [⟨"YoHD9XEInc0"⟩]] none
          = (⟨some [["Title", "Year", "Rated", "Release Date", "Runtime", "Genre", "Director",
                "Writer", "Actors", "Language", "Plot", "Trailer Link"],
              ["Inception", "2010", "PG-13", "16 Jul 2010", "148 min",
                "Action, Adventure, Sci-Fi", "Christopher Nolan", "Christopher Nolan",
                "Leonardo DiCaprio", "English", "A thief who steals corporate secrets.",
                "https://www.youtube.com/watch?v=YoHD9XEInc0"]], 1,
              ["Nonexistent Movie XYZ123", "Inception"]⟩, .endOfInput) := by
  have hf : fetchMovieDetails s.omdb apiKey title
      = (data, some ("OMDB API error: " ++ data.Error)) := by
    simp [fetchMovieDetails, hresp, hnf]
  have ht : s.title? = some title := by simp [Step.title?, hread]
  have hm : s.metadataFails apiKey = true := by simp [Step.metadataFails, hread, hf]
  have hrow : s.row? apiKey youtubeAPIKey = none := by simp [Step.row?, hread, hf]
  have htf : s.trailerFails apiKey youtubeAPIKey = false := by
    simp [Step.trailerFails, hread, hf]
  have hrows : (pre ++ s :: post).filterMap (Step.row? apiKey youtubeAPIKey)
      = (pre ++ post).filterMap (Step.row? apiKey youtubeAPIKey) := by
    simp [List.filterMap_append, List.filterMap_cons, hrow]
  have htitles : titlesOf (pre ++ s :: post) = titlesOf pre ++ title :: titlesOf post := by
    simp [titlesOf, List.filterMap_append, List.filterMap_cons, ht]
  have hall : ∀ p ∈ pre ++ s :: post, p.trailerFails apiKey youtubeAPIKey = false := by
    intro p hp
    rcases List.mem_append.1 hp with h | h
    · exact hothers p (List.mem_append.2 (Or.inl h))
    · rcases List.mem_cons.1 h with h | h
      · rw [h]; exact htf
      · exact hothers p (List.mem_append.2 (Or.inr h))
  have hthrough := enrichLoop_through apiKey youtubeAPIKey (pre ++ s :: post) []
    ⟨file, 0, []⟩ hall (by rw [hrows]; show 0 + _ < batchSize; omega)
  rw [List.append_nil, hrows, htitles] at hthrough
  obtain ⟨n, hn, h1, h2, _, _, _, h6, _, _⟩ :=
    enrichLoop_processed apiKey youtubeAPIKey steps ⟨file, 0, []⟩ (Nat.zero_le _)
  refine ⟨?_, hrows, enrichLoop_skip apiKey youtubeAPIKey s rest st title hst ht hm, hrow,
    ⟨n, hn, by simpa [enrich] using h1, by simpa [enrich] using h2⟩,
    fun k hk hc => enrich_reaches apiKey youtubeAPIKey steps file k hk hc, ?_, by decide,
    by decide⟩
  · rw [enrich, hthrough]
    simp [enrichLoop]
  · intro he
    have hlen := h6 he
    rw [enrich, h2, hlen, List.take_length]

/-- A sample for `not_found_skipped`: a not-found title between two found
ones; both found titles are written. -/
theorem not_found_skipped_witness :
    enrich "k" "y"
        ([foundStep "A" [⟨"a"⟩]] ++ notFoundStep "Nonexistent Movie XYZ123"
          :: [foundStep "B" [⟨"b"⟩]]) none
      = (⟨some [header, outputRow (sampleData "True" "") "https://www.youtube.com/watch?v=a",
            outputRow (sampleData "True" "") "https://www.youtube.com/watch?v=b"], 2,
          ["A", "Nonexistent Movie XYZ123", "B"]⟩, .endOfInput) :=
  (not_found_skipped "k" "y" [foundStep "A" [⟨"a"⟩]] (notFoundStep "Nonexistent Movie XYZ123")
    [foundStep "B" [⟨"b"⟩]] [] ⟨none, 0, []⟩ "Nonexistent Movie XYZ123" []
    ⟨"", "", "", "", "", "", "", "", "", "", "", "False", "Movie not found!", ""⟩
    rfl rfl rfl (by decide) (by decide) (by decide) [] none).1.trans (by decide)

/-- C9: when the metadata of a title is found and its trailer search fails,
and no earlier title of the run had a failed trailer search (the rows of the
earlier titles staying below the ceiling, so that the title is reached), the
run ends there in `log.Fatal`: the file is what the earlier titles left, as
if the input had ended before this title, no row is written for the title,
and the records after it are neither looked up nor written. -/
theorem trailer_failure_fatal (apiKey youtubeAPIKey : String) (pre : List Step) (s : Step)
    (post : List Step) (file : Option (List Row)) (title : String) (others : List String)
    (data : Data) (link err : String)
    (hpre : ∀ p ∈ pre, p.trailerFails apiKey youtubeAPIKey = false)
    (hcount : (pre.filterMap (Step.row? apiKey youtubeAPIKey)).length < batchSize)
    (hread : s.read = .record title others)
    (hmeta : fetchMovieDetails s.omdb apiKey title = (data, none))
    (htrailer : searchActualYouTubeTrailer s.youtube youtubeAPIKey data.Title data.Year
      = (link, some err)) :
    enrich apiKey youtubeAPIKey (pre ++ s :: post) file
        = (⟨writeAll file (pre.filterMap (Step.row? apiKey youtubeAPIKey)),
            (pre.filterMap (Step.row? apiKey youtubeAPIKey)).length,
            titlesOf pre ++ [title]⟩, .fatal err)
      ∧ enrich apiKey youtubeAPIKey pre file
        = (⟨writeAll file (pre.filterMap (Step.row? apiKey youtubeAPIKey)),
            (pre.filterMap (Step.row? apiKey youtubeAPIKey)).length, titlesOf pre⟩, .endOfInput)
      ∧ (enrich apiKey youtubeAPIKey (pre ++ s :: post) file).1.file
        = (enrich apiKey youtubeAPIKey pre file).1.file
      ∧ s.row? apiKey youtubeAPIKey = none := by
  have h0 : (0 : Nat) + (pre.filterMap (Step.row? apiKey youtubeAPIKey)).length < batchSize := by
    omega
  have hthrough := enrichLoop_through apiKey youtubeAPIKey pre (s :: post) ⟨file, 0, []⟩ hpre h0
  have hend := enrichLoop_through apiKey youtubeAPIKey pre [] ⟨file, 0, []⟩ hpre h0
  rw [List.append_nil] at hend
  have hlt : ¬ ((pre.filterMap (Step.row? apiKey youtubeAPIKey)).length ≥ batchSize) := by omega
  have e1 : enrich apiKey youtubeAPIKey (pre ++ s :: post) file
        = (⟨writeAll file (pre.filterMap (Step.row? apiKey youtubeAPIKey)),
            (pre.filterMap (Step.row? apiKey youtubeAPIKey)).length,
            titlesOf pre ++ [title]⟩, .fatal err) := by
    rw [enrich, hthrough]
    simp [enrichLoop, hlt, hread, hmeta, htrailer]
  have e2 : enrich apiKey youtubeAPIKey pre file
        = (⟨writeAll file (pre.filterMap (Step.row? apiKey youtubeAPIKey)),
            (pre.filterMap (Step.row? apiKey youtubeAPIKey)).length, titlesOf pre⟩,
            .endOfInput) := by
    rw [enrich, hend]
    simp [enrichLoop]
  refine ⟨e1, e2, by rw [e1, e2], ?_⟩
  simp [Step.row?, hread, hmeta, htrailer]

/-- A sample for `trailer_failure_fatal`: the third title has no trailer. -/
theorem trailer_failure_fatal_witness :
    enrich "k" "y"
        ([foundStep "A" [⟨"a"⟩], notFoundStep "B"] ++ foundStep "C" [] :: [foundStep "D" [⟨"d"⟩]])
        (some [["x"]])
      = (⟨writeAll (some [["x"]])
            ([foundStep "A" [⟨"a"⟩], notFoundStep "B"].filterMap (Step.row? "k" "y")),
          ([foundStep "A" [⟨"a"⟩], notFoundStep "B"].filterMap (Step.row? "k" "y")).length,
          titlesOf [foundStep "A" [⟨"a"⟩], notFoundStep "B"] ++ ["C"]⟩,
        .fatal "no trailer found") :=
  (trailer_failure_fatal "k" "y" [foundStep "A" [⟨"a"⟩], notFoundStep "B"] (foundStep "C" [])
    [foundStep "D" [⟨"d"⟩]] (some [["x"]]) "C" [] (sampleData "True" "") "" "no trailer found"
    (by decide) (by decide) rfl rfl rfl).1

end MovieData
